import Mathlib

/-!
Verification of the Open-Data Retrieval and Preparation Pipeline.

Shallow embedding of the pipeline code:
  format_adapters.py   (JSONAdapter, CSVAdapter, column normalization,
                        tab-separated column expansion, parquet cache)
  data_gov_client.py   (paginated fetch with bounded retry)
  dataset_discovery.py (candidate deduplication, catalog registration,
                        relevance selection with fallback)
  data_interpreter.py  (head / middle / tail smart sampling)

Cell values are modelled as strings, integers and nulls; a table is a
list of named columns in order; the parquet cache directory is an
association list from resource id to table.  External effects (HTTP
transport, the generative model) are parameters of the embedded
functions, as in the code they are injected collaborators.
-/

namespace Samarth

/-- A cell of a pandas DataFrame: a string, a number, or a null (NaN). -/
inductive Cell where
  | str (s : String)
  | num (n : Int)
  | null
deriving DecidableEq, Repr

/-- A DataFrame: named columns in their stable order. -/
abbrev Table := List (String × List Cell)

/-- The parquet cache directory: one cached table per resource id. -/
abbrev Cache := List (String × Table)

/-- Python `str.strip()` on the character list of a name: drop leading
and trailing whitespace. -/
def stripChars (l : List Char) : List Char :=
  ((l.dropWhile Char.isWhitespace).reverse.dropWhile Char.isWhitespace).reverse

/-- `FormatAdapter._normalize_columns` on one name: strip, lowercase
(ASCII, the dataset column names in scope are ASCII), then replace
spaces and hyphens with underscores; the two single-character
`str.replace` calls act independently on each character. -/
def normalizeName (s : String) : String :=
  String.mk ((stripChars s.data).map (fun ch =>
    let lc := ch.toLower
    if lc = ' ' then '_' else if lc = '-' then '_' else lc))

/-- `FormatAdapter._normalize_columns`: rename every column. -/
def normalizeColumns (t : Table) : Table :=
  t.map (fun c => (normalizeName c.1, c.2))

/-- Whether a cell is null (NaN). -/
def isNullCell : Cell → Bool
  | .null => true
  | _ => false

/-- Whether a cell is a Python string. -/
def isStrCell : Cell → Bool
  | .str _ => true
  | _ => false

/-- `df[col].dropna().iloc[0]`: first non-null value of a column. -/
def firstNonNull (vs : List Cell) : Option Cell :=
  (vs.filter (fun v => !isNullCell v)).head?

/-- `df[col].dtype == object`: a column holding at least one string. -/
def objectDtype (vs : List Cell) : Bool :=
  vs.any isStrCell

/-- Python `tab in value`: the string contains a horizontal tab. -/
def containsTab (s : String) : Bool :=
  s.data.any (fun ch => ch == '\t')

/-- The detection test of `_parse_tab_separated_columns`: the sampled
first non-null value is a string containing a horizontal tab. -/
def tabDetected (vs : List Cell) : Bool :=
  match firstNonNull vs with
  | some (.str s) => containsTab s
  | _ => false

/-- The column the scan loop fires on: first column, in order, that is
not named `source_id`, has object dtype, and samples a tab. -/
def findTabColumn (t : Table) : Option (String × List Cell) :=
  t.find? (fun c => c.1 != "source_id" && objectDtype c.2 && tabDetected c.2)

/-- Split a character list on a separator character, keeping empty
pieces, as Python `str.split` with an explicit separator does. -/
def splitOnChar (c : Char) : List Char → List (List Char)
  | [] => [[]]
  | a :: rest =>
    match splitOnChar c rest with
    | [] => [[a]]
    | h :: t => if a = c then [] :: h :: t else (a :: h) :: t

/-- Python `value.split(tab)` on a string. -/
def splitTab (s : String) : List String :=
  (splitOnChar '\t' s.data).map String.mk

/-- `value.split(tab)` of one cell under the pandas `.str` accessor:
a non-string cell yields no parts (it becomes an all-NaN row). -/
def splitParts : Cell → List String
  | .str s => splitTab s
  | _ => []

/-- `split_data.shape[1]`: the number of expanded columns, the widest
split over all rows. -/
def splitWidth (vs : List Cell) : Nat :=
  (vs.map (fun v => (splitParts v).length)).foldr max 0

/-- Column `j` of `df[col].str.split(tab, expand=True)`: the j-th part
of each row, NaN where the row has fewer parts. -/
def splitColValues (vs : List Cell) (j : Nat) : List Cell :=
  vs.map (fun v => ((splitParts v).map Cell.str).getD j Cell.null)

/-- The duplicate-handling loop of `_parse_tab_separated_columns`
(lines 113-124): blank fragments become positional placeholders, a
repeated name gets a numeric suffix from the `seen` dictionary. -/
def cleanNamesAux : List String → Nat → List (String × Nat) → List String
  | [], _, _ => []
  | n :: rest, i, seen =>
    let n1 := if n = "" || n = " " then "col_" ++ toString i else n
    match seen.lookup n1 with
    | some k =>
        (n1 ++ "_" ++ toString (k + 1)) ::
          cleanNamesAux rest (i + 1)
            (seen.map (fun p => if p.1 == n1 then (p.1, k + 1) else p))
    | none => n1 :: cleanNamesAux rest (i + 1) ((n1, 0) :: seen)

/-- Cleaned column names from the underscore fragments of the packed
column name. -/
def cleanNames (names : List String) : List String :=
  cleanNamesAux names 0 []

/-- Names given to the expanded columns: the cleaned fragments when the
fragment count matches the split width, otherwise the fragment at each
position with a positional placeholder past the end (lines 111-129). -/
def expandedNames (col : String) (width : Nat) : List String :=
  let potential := (splitOnChar '_' col.data).map String.mk
  if potential.length = width then cleanNames potential
  else (List.range width).map (fun i => potential.getD i ("col_" ++ toString i))

/-- The expanded sub-table built from one packed column. -/
def expandColumn (col : String) (vs : List Cell) : Table :=
  let w := splitWidth vs
  List.zip (expandedNames col w) ((List.range w).map (fun j => splitColValues vs j))

/-- `JSONAdapter._parse_tab_separated_columns`: expand at most one
packed column; `df.drop(columns=[col])` followed by
`pd.concat([split_data, df], axis=1)` places the expanded columns in
front of the remaining ones. -/
def parseTabSeparatedColumns (t : Table) : Table :=
  match findTabColumn t with
  | none => t
  | some c => expandColumn c.1 c.2 ++ t.filter (fun d => d.1 != c.1)

/-- `len(df)`: the row count of a rectangular table. -/
def nrows (t : Table) : Nat :=
  (t.head?.map (fun c => c.2.length)).getD 0

/-- `df[source col] = resource_id`: broadcast assignment.  When a
column of that name exists every such column is overwritten in place,
otherwise the column is appended at the end. -/
def setSourceId (t : Table) (id : String) : Table :=
  if t.any (fun c => c.1 == "source_id") then
    t.map (fun c =>
      if c.1 == "source_id" then (c.1, c.2.map (fun _ => Cell.str id)) else c)
  else t ++ [("source_id", List.replicate (nrows t) (Cell.str id))]

/-- `JSONAdapter.read_and_cache`.  The raw record list has already
passed through `pd.DataFrame(data)` (a pandas conversion, external to
the pipeline), so the payload is given as a table.  A cache hit is
returned unconditionally; a miss normalizes, expands, stamps the
provenance column and stores the result under the resource id. -/
def jsonReadAndCache (cache : Cache) (resource_id : String) (data : Table) :
    Table × Cache :=
  match cache.lookup resource_id with
  | some t => (t, cache)
  | none =>
      let df := setSourceId (parseTabSeparatedColumns (normalizeColumns data)) resource_id
      (df, (resource_id, df) :: cache)

/-- `CSVAdapter.read_and_cache`.  The download and `pd.read_csv` step
is external I/O, so the parsed file is given as a table.  No
tab-expansion happens on this path. -/
def csvReadAndCache (cache : Cache) (resource_id : String) (csv : Table) :
    Table × Cache :=
  match cache.lookup resource_id with
  | some t => (t, cache)
  | none =>
      let df := setSourceId (normalizeColumns csv) resource_id
      (df, (resource_id, df) :: cache)

/-- The provenance invariant of a produced table: a `source_id` column
is present and every value of every such column equals the originating
resource id (in particular none is null). -/
def hasProvenance (t : Table) (id : String) : Bool :=
  t.any (fun c => c.1 == "source_id") &&
    t.all (fun c => c.1 != "source_id" || c.2.all (fun v => v == Cell.str id))

/-- Well-formed cache: every cached table carries the provenance of the
resource id it is stored under. -/
def cacheWF (c : Cache) : Prop :=
  ∀ id t, c.lookup id = some t → hasProvenance t id = true

/-- A concrete cached table used to instantiate hypotheses. -/
def demoCachedTable : Table :=
  [("state", [Cell.str "MH"]), ("source_id", [Cell.str "d1"])]

/-- A concrete raw payload used to instantiate hypotheses. -/
def demoPayload : Table :=
  [("Rain Fall", [Cell.num 5])]

/-- A table whose packed column is second: the column `a` precedes the
tab-packed column `x_y`. -/
def packedSecondTable : Table :=
  [("a", [Cell.str "hello"]), ("x_y", [Cell.str "1\t2"])]

/-! ### Resource client (`data_gov_client.py`) -/

/-- The `while True` loop of `DataGovClient.fetch_all_pages`.  The
remote endpoint is a function from the requested offset to the parsed
JSON body, where `none` models a body without a `records` key.  The
result pairs the accumulated records with the list of offsets at which
`fetch_resource` was invoked; `none` means the fuel bound was hit
before the loop broke (the code itself has no bound). -/
def fetchLoop {α : Type} (src : Nat → Option (List α)) (limit : Nat) :
    Nat → Nat → List α → List Nat → Option (List α × List Nat)
  | 0, _, _, _ => none
  | fuel + 1, offset, acc, calls =>
    match src offset with
    | none => some (acc, calls ++ [offset])
    | some records =>
      if records.isEmpty then some (acc, calls ++ [offset])
      else if records.length < limit then some (acc ++ records, calls ++ [offset])
      else fetchLoop src limit fuel (offset + limit) (acc ++ records) (calls ++ [offset])

/-- `DataGovClient.fetch_all_pages`: start at offset 0 with an empty
accumulator. -/
def fetch_all_pages {α : Type} (src : Nat → Option (List α)) (limit fuel : Nat) :
    Option (List α × List Nat) :=
  fetchLoop src limit fuel 0 [] []

/-- A stub paginated source built from a page list: the response at an
offset is the page with that index at the requested page size, and an
empty page past the end. -/
def pageStub {α : Type} (pages : List (List α)) (limit : Nat) :
    Nat → Option (List α) :=
  fun offset => some (pages.getD (offset / limit) [])

/-- Outcome of a tenacity-wrapped call: the value of a successful
attempt, or after the stop bound the generic retry-exhaustion error
wrapping only the outcome of the last attempt.  No resource identifier
is part of the error value. -/
inductive RetryOutcome (ε α : Type) where
  | ok (a : α)
  | retryError (lastCause : ε)
deriving DecidableEq, Repr

/-- The decorator `retry(stop=stop_after_attempt(3), wait=...)` around
the body of `fetch_resource`: attempts are numbered 1 to 3 and the pair
carries the outcome together with the number of calls made to the
wrapped body.  The exponentially growing waits between attempts are
real-time sleeps and are not part of the value model. -/
def retryStopAfter3 {ε α : Type} (f : Nat → Except ε α) : RetryOutcome ε α × Nat :=
  match f 1 with
  | .ok a => (.ok a, 1)
  | .error _ =>
    match f 2 with
    | .ok a => (.ok a, 2)
    | .error _ =>
      match f 3 with
      | .ok a => (.ok a, 3)
      | .error e => (.retryError e, 3)

/-- `DataGovClient.fetch_resource`: the url embeds the resource id, the
transport (`requests.get`, `raise_for_status`, `.json()`) maps the url
and the attempt number to that attempt outcome. -/
def fetch_resource {ε α : Type} (base_url resource_id : String)
    (transport : String → Nat → Except ε α) : RetryOutcome ε α × Nat :=
  retryStopAfter3 (transport (base_url ++ "/" ++ resource_id))

/-- A transport whose every attempt raises the same connection error. -/
def failingTransport : String → Nat → Except String Unit :=
  fun _ _ => Except.error "connection timeout"

/-! ### Table preparer (`data_interpreter.py`) -/

/-- `DataInterpreter._smart_sample`.  The code computes
`int(max_rows * 0.4)` and `int(max_rows * 0.2)` in double floats; at
every relevant magnitude those doubles truncate to the exact rational
values, embedded here as `max_rows * 2 / 5` and `max_rows / 5` in
natural division.  `head`, `iloc[a:b]` and `tail` become take and
drop. -/
def smart_sample {α : Type} (rows : List α) (max_rows : Nat) : List α :=
  if rows.length ≤ max_rows then rows
  else
    let first_n := max_rows * 2 / 5
    let middle_n := max_rows / 5
    let last_n := max_rows - first_n - middle_n
    let middle_start := (rows.length - middle_n) / 2
    rows.take first_n ++ ((rows.drop middle_start).take middle_n) ++
      rows.drop (rows.length - last_n)

/-! ### Dataset discovery (`dataset_discovery.py`, `dataset_catalog.py`) -/

/-- The `DatasetMetadata` dataclass.  The publisher can be `None` when
the search record has an `org` dict without a `title`. -/
structure DatasetMetadata where
  dataset_id : String
  resource_id : String
  name : String
  publisher : Option String
  format : String
  category : String
  sample_columns : String
  last_updated : Option String
deriving DecidableEq, Repr

/-- The catalog registry, in insertion order. -/
abbrev Catalog := List DatasetMetadata

/-- `DatasetCatalog.add_dataset`: insert, or update in place on a
`dataset_id` conflict. -/
def addDataset (c : Catalog) (m : DatasetMetadata) : Catalog :=
  if c.any (fun d => d.dataset_id == m.dataset_id) then
    c.map (fun d => if d.dataset_id == m.dataset_id then m else d)
  else c ++ [m]

/-- `DatasetCatalog.get_dataset`: lookup by primary key. -/
def getDataset (c : Catalog) (id : String) : Option DatasetMetadata :=
  c.find? (fun d => d.dataset_id == id)

/-- `DatasetCatalog.list_datasets(category)`. -/
def listDatasets (c : Catalog) (category : String) : Catalog :=
  c.filter (fun d => d.category == category)

/-- Python `str.strip()`. -/
def pyStrip (s : String) : String :=
  String.mk (stripChars s.data)

/-- Python `str.lower()` (ASCII). -/
def pyLower (s : String) : String :=
  String.mk (s.data.map Char.toLower)

/-- Python `s.split(",")`. -/
def pySplitComma (s : String) : List String :=
  (splitOnChar ',' s.data).map String.mk

/-- Python `",".join(l)`. -/
def joinComma : List String → String
  | [] => ""
  | [s] => s
  | s :: rest => s ++ "," ++ joinComma rest

/-- Split a character list at every character satisfying a predicate,
keeping empty pieces. -/
def splitOnPred (p : Char → Bool) : List Char → List (List Char)
  | [] => [[]]
  | a :: rest =>
    match splitOnPred p rest with
    | [] => [[a]]
    | h :: t => if p a then [] :: h :: t else (a :: h) :: t

/-- `len(s.split())`: Python whitespace split with no arguments drops
empty pieces. -/
def pyWordCount (s : String) : Nat :=
  ((splitOnPred Char.isWhitespace s.data).filter (fun w => w ≠ [])).length

/-- `DatasetDiscovery.get_relevant_datasets`.  The model call for the
built relevance prompt is a parameter: an exception or the raw response
text.  On an exception the method falls back to every catalog entry of
the two tracked categories; a text response is stripped, the literal
sentinel maps to the empty list, and anything else is split on commas
and returned as is. -/
def get_relevant_datasets (catalog : Catalog) (llm : Except Unit String) :
    List String :=
  let climate := listDatasets catalog "climate"
  let agri := listDatasets catalog "agriculture"
  match llm with
  | .error _ => (climate ++ agri).map (fun d => d.dataset_id)
  | .ok text =>
    let result := pyStrip text
    if result = "NONE" then []
    else (pySplitComma result).map pyStrip

/-- A raw search-result record, restricted to the keys the discovery
code reads.  A missing key is `none`; `org_is_dict` tells whether the
`org` key holds a dict, and `org_title` is its `title` entry then.
`fields` lists the `id` entries of the `field` array. -/
structure Candidate where
  index_name : Option String
  resource_id : Option String
  id : Option String
  org_id : Option String
  title : Option String
  desc : Option String
  description : Option String
  org_is_dict : Bool
  org_title : Option String
  source : Option String
  format : Option String
  fields : List String
  updated_date : Option String
deriving DecidableEq, Repr

/-- Python `a or b` over optional strings: a missing key and the empty
string are falsy. -/
def pyOr (a b : Option String) : Option String :=
  match a with
  | some s => if s = "" then b else some s
  | none => b

/-- `DatasetDiscovery._extract_resource_id`: first present truthy field
in priority order. -/
def extract_resource_id (ds : Candidate) : Option String :=
  pyOr ds.index_name (pyOr ds.resource_id (pyOr ds.id ds.org_id))

/-- Truthiness of the extracted id in `if resource_id and ...`. -/
def truthyId (o : Option String) : Bool :=
  match o with
  | some s => s != ""
  | none => false

/-- The deduplication loop shared by `discover_all_datasets` (lines
139-145) and `discover_and_add_datasets_for_question` (lines 257-263):
keep a candidate only when its extracted id is truthy and unseen. -/
def dedupGo : List Candidate → List String → List Candidate
  | [], _ => []
  | ds :: rest, seen =>
    match extract_resource_id ds with
    | none => dedupGo rest seen
    | some rid =>
      if rid = "" then dedupGo rest seen
      else if rid ∈ seen then dedupGo rest seen
      else ds :: dedupGo rest (rid :: seen)

/-- Deduplicated candidate list, first occurrence wins. -/
def dedupCandidates (l : List Candidate) : List Candidate :=
  dedupGo l []

/-- The generic single-word titles of `_convert_to_metadata`. -/
def genericTitles : List String :=
  ["rainfall", "temperature", "production", "crop", "data"]

/-- `DatasetDiscovery._convert_to_metadata`. -/
def convert_to_metadata (ds : Candidate) (category : String) :
    Option DatasetMetadata :=
  match extract_resource_id ds with
  | none => none
  | some rid =>
    if rid = "" then none
    else
      let title := ds.title.getD "Unknown Dataset"
      let publisher : Option String :=
        if ds.org_is_dict then ds.org_title
        else some (ds.source.getD "data.gov.in")
      let name :=
        match publisher with
        | some p =>
          if p ≠ "" ∧ p ≠ "data.gov.in" ∧
              (pyWordCount title ≤ 2 ∨ pyLower title ∈ genericTitles) then
            title ++ " (" ++ p ++ ")"
          else title
        | none => title
      let format0 := pyLower (ds.format.getD "json")
      let format_type :=
        if format0 ∈ ["json", "csv", "xlsx", "xls"] then format0 else "json"
      some ⟨rid, rid, name, publisher, format_type, category,
        joinComma (ds.fields.take 10), ds.updated_date⟩

/-- Step 3 of `discover_and_add_datasets_for_question` over the
deduplicated candidates: skip candidates already in the catalog,
classify the rest through the model call (`categorize_dataset`, a
parameter returning the validated category or nothing), convert and
register.  Returns the grown catalog and the newly added entries. -/
def addNewDatasets (classify : Candidate → Option String) :
    Catalog → List Candidate → Catalog × List DatasetMetadata
  | catalog, [] => (catalog, [])
  | catalog, ds :: rest =>
    let rid := (extract_resource_id ds).getD ""
    match getDataset catalog rid with
    | some _ => addNewDatasets classify catalog rest
    | none =>
      match classify ds with
      | none => addNewDatasets classify catalog rest
      | some category =>
        match convert_to_metadata ds category with
        | none => addNewDatasets classify catalog rest
        | some m =>
          let r := addNewDatasets classify (addDataset catalog m) rest
          (r.1, m :: r.2)

/-- The per-question discovery path: search results are deduplicated,
new ones classified and registered, then the relevance call (or its
fallback) selects identifiers from the grown catalog. -/
def discover_and_add_for_question (catalog : Catalog)
    (classify : Candidate → Option String) (searchResults : List Candidate)
    (llmRelevance : Except Unit String) : List String × Catalog :=
  let grown := (addNewDatasets classify catalog (dedupCandidates searchResults)).1
  (get_relevant_datasets grown llmRelevance, grown)

/-- The bootstrap registration loop of `discover_all_datasets` for one
category: convert each kept candidate and register it. -/
def bootstrapAdd (category : String) :
    Catalog → List Candidate → Catalog × List DatasetMetadata
  | catalog, [] => (catalog, [])
  | catalog, ds :: rest =>
    match convert_to_metadata ds category with
    | none => bootstrapAdd category catalog rest
    | some m =>
      let r := bootstrapAdd category (addDataset catalog m) rest
      (r.1, m :: r.2)

/-- The bootstrap path of `discover_all_datasets` for one category:
merged search results are deduplicated, capped at 10, converted and
registered. -/
def discover_all_for_category (catalog : Catalog) (candidates : List Candidate)
    (category : String) : Catalog × List DatasetMetadata :=
  bootstrapAdd category catalog ((dedupCandidates candidates).take 10)

/-- A catalog entry used in concrete instantiations. -/
def demoCatalogEntry : DatasetMetadata :=
  ⟨"real-id", "real-id", "Rainfall India", some "IMD", "json", "climate", "", none⟩

/-- A search candidate none of whose identifier fields is truthy. -/
def noIdCandidate : Candidate :=
  ⟨none, some "", none, none, some "Orphan dataset", none, none, false, none,
    none, none, [], none⟩

/-- C1.  Once a cache entry exists for an identifier, `read_and_cache`
returns it unconditionally, ignoring the payload; hence a second call
with the same identifier returns exactly the first call result. -/
theorem jsonReadAndCache_cache_idempotent :
    (∀ (cache : Cache) (id : String) (t : Table) (p q : Table),
        cache.lookup id = some t →
        jsonReadAndCache cache id p = (t, cache) ∧
        jsonReadAndCache cache id p = jsonReadAndCache cache id q) ∧
    (∀ (cache : Cache) (id : String) (p q : Table),
        jsonReadAndCache (jsonReadAndCache cache id p).2 id q =
          jsonReadAndCache cache id p) := by
  constructor
  · intro cache id t p q h
    constructor <;> simp [jsonReadAndCache, h]
  · intro cache id p q
    cases h : cache.lookup id with
    | some t => simp [jsonReadAndCache, h]
    | none => simp [jsonReadAndCache, h, List.lookup]

/-- C1 witness: a concrete populated cache, two different payloads. -/
theorem jsonReadAndCache_cache_idempotent_witness :
    jsonReadAndCache [("d1", demoCachedTable)] "d1" demoPayload =
        (demoCachedTable, [("d1", demoCachedTable)]) ∧
    jsonReadAndCache [("d1", demoCachedTable)] "d1" demoPayload =
        jsonReadAndCache [("d1", demoCachedTable)] "d1" [] :=
  jsonReadAndCache_cache_idempotent.1 [("d1", demoCachedTable)] "d1"
    demoCachedTable demoPayload [] (by rfl)

theorem setSourceId_hasProvenance (t : Table) (id : String) :
    hasProvenance (setSourceId t id) id = true := by
  unfold setSourceId hasProvenance
  by_cases h : t.any (fun c => c.1 == "source_id")
  · rw [if_pos h]
    rw [Bool.and_eq_true, List.any_eq_true, List.all_eq_true]
    obtain ⟨c, hc, hcn⟩ := List.any_eq_true.mp h
    refine ⟨⟨(c.1, c.2.map (fun _ => Cell.str id)),
      List.mem_map.mpr ⟨c, hc, by simp [hcn]⟩, hcn⟩, ?_⟩
    intro c' hc'
    obtain ⟨d, hd, rfl⟩ := List.mem_map.mp hc'
    by_cases hdn : d.1 == "source_id"
    · simp [hdn, List.all_eq_true]
    · have hf : (d.1 == "source_id") = false := by simpa using hdn
      simp only [hf, Bool.false_eq_true, if_false]
      simp only [hf, bne, Bool.not_false, Bool.true_or]
  · rw [if_neg h]
    rw [Bool.and_eq_true, List.any_eq_true, List.all_eq_true]
    refine ⟨⟨("source_id", List.replicate (nrows t) (Cell.str id)),
      by simp, by simp⟩, ?_⟩
    intro c' hc'
    rcases List.mem_append.mp hc' with hmem | hmem
    · have : ¬ (c'.1 == "source_id") = true :=
        fun hx => h (List.any_eq_true.mpr ⟨c', hmem, hx⟩)
      simp_all
    · simp at hmem
      subst hmem
      simp [List.all_eq_true, List.eq_of_mem_replicate]

theorem cacheWF_cons (c : Cache) (id : String) (t : Table)
    (h : cacheWF c) (ht : hasProvenance t id = true) : cacheWF ((id, t) :: c) := by
  intro id' t' h'
  by_cases hbe : id' == id
  · simp only [List.lookup, hbe] at h'
    cases h'
    have : id' = id := eq_of_beq hbe
    subst this
    exact ht
  · simp only [List.lookup, Bool.not_eq_true] at hbe h'
    rw [hbe] at h'
    exact h id' t' h'

/-- C9.  Starting from a well-formed cache, the table produced by
`read_and_cache` on the JSON path and the CSV path contains the
`source_id` column filled everywhere with the identifier of the call,
and the cache stays well formed. -/
theorem readAndCache_provenance (cache : Cache) (id : String) (data : Table)
    (hWF : cacheWF cache) :
    hasProvenance (jsonReadAndCache cache id data).1 id = true ∧
    hasProvenance (csvReadAndCache cache id data).1 id = true ∧
    cacheWF (jsonReadAndCache cache id data).2 ∧
    cacheWF (csvReadAndCache cache id data).2 := by
  cases h : cache.lookup id with
  | some t =>
      have hp := hWF id t h
      refine ⟨?_, ?_, ?_, ?_⟩ <;> simp [jsonReadAndCache, csvReadAndCache, h, hp, hWF]
  | none =>
      refine ⟨?_, ?_, ?_, ?_⟩ <;>
        simp only [jsonReadAndCache, csvReadAndCache, h]
      · exact setSourceId_hasProvenance _ id
      · exact setSourceId_hasProvenance _ id
      · exact cacheWF_cons cache id _ hWF (setSourceId_hasProvenance _ id)
      · exact cacheWF_cons cache id _ hWF (setSourceId_hasProvenance _ id)

/-- C9 witness: the empty cache is well formed and a concrete payload
gets the provenance column on both paths. -/
theorem readAndCache_provenance_witness :
    hasProvenance (jsonReadAndCache [] "d1" demoPayload).1 "d1" = true ∧
    hasProvenance (csvReadAndCache [] "d1" demoPayload).1 "d1" = true ∧
    cacheWF (jsonReadAndCache [] "d1" demoPayload).2 ∧
    cacheWF (csvReadAndCache [] "d1" demoPayload).2 :=
  readAndCache_provenance [] "d1" demoPayload
    (fun _ _ h => Option.noConfusion h)

/-- C5 counterexample: in `packedSecondTable` the column `a` precedes
the packed column `x_y`, yet after expansion the expanded columns `x`
and `y` come first and `a` follows them, so a column that preceded the
packed column does not precede the expanded columns. -/
theorem parseTab_packed_position_counterexample :
    packedSecondTable.map Prod.fst = ["a", "x_y"] ∧
    (parseTabSeparatedColumns packedSecondTable).map Prod.fst = ["x", "y", "a"] ∧
    List.indexOf "x" ((parseTabSeparatedColumns packedSecondTable).map Prod.fst) <
      List.indexOf "a" ((parseTabSeparatedColumns packedSecondTable).map Prod.fst) := by
  decide

/-- C5 amended.  When expansion fires on a packed column, the expanded
columns are placed at the front of the table; the remaining columns
follow as an order-preserving sublist of the original table with every
copy of the packed column removed. -/
theorem parseTab_expanded_columns_front (t : Table) (c : String × List Cell)
    (h : findTabColumn t = some c) :
    parseTabSeparatedColumns t =
      expandColumn c.1 c.2 ++ t.filter (fun d => d.1 != c.1) ∧
    (t.filter (fun d => d.1 != c.1)).Sublist t ∧
    ∀ d ∈ t.filter (fun d => d.1 != c.1), d.1 ≠ c.1 := by
  refine ⟨by simp [parseTabSeparatedColumns, h], List.filter_sublist t, ?_⟩
  intro d hd
  have hne := (List.mem_filter.mp hd).2
  simpa using hne

/-- C5 witness: the amended statement at the concrete two-column
table. -/
theorem parseTab_expanded_columns_front_witness :
    parseTabSeparatedColumns packedSecondTable =
      expandColumn "x_y" [Cell.str "1\t2"] ++
        packedSecondTable.filter (fun d => d.1 != "x_y") ∧
    (packedSecondTable.filter (fun d => d.1 != "x_y")).Sublist packedSecondTable ∧
    ∀ d ∈ packedSecondTable.filter (fun d => d.1 != "x_y"), d.1 ≠ "x_y" :=
  parseTab_expanded_columns_front packedSecondTable ("x_y", [Cell.str "1\t2"])
    (by decide)

theorem cleanNamesAux_eq_self (names : List String) :
    ∀ (i : Nat) (seen : List (String × Nat)),
    "" ∉ names → " " ∉ names → names.Nodup →
    (∀ n ∈ names, seen.lookup n = none) →
    cleanNamesAux names i seen = names := by
  induction names with
  | nil => intro i seen _ _ _ _; rfl
  | cons n rest ih =>
    intro i seen hb hs hnd hseen
    have hn : ¬(n = "" || n = " ") := by
      simp only [not_or, Bool.or_eq_true, decide_eq_true_eq]
      exact ⟨fun h => hb (h ▸ List.mem_cons_self n rest),
             fun h => hs (h ▸ List.mem_cons_self n rest)⟩
    rw [cleanNamesAux]
    simp only [if_neg hn]
    rw [hseen n (List.mem_cons_self n rest)]
    rw [ih (i + 1) ((n, 0) :: seen)
      (fun h => hb (List.mem_cons_of_mem n h))
      (fun h => hs (List.mem_cons_of_mem n h))
      (List.Nodup.of_cons hnd)
      ?_]
    intro m hm
    have hmn : ¬(m == n) = true := by
      intro h
      exact (List.nodup_cons.mp hnd).1 (eq_of_beq h ▸ hm)
    simp only [List.lookup, Bool.not_eq_true] at hmn ⊢
    rw [hmn]
    exact hseen m (List.mem_cons_of_mem n hm)

/-- C6.  The `state_year_rain` payload expands to the three columns
`state`, `year`, `rain` with the tab-split values; when the fragment
count matches the field count the fragments are used as names: a list
of distinct non-blank fragments is kept as is, a blank fragment becomes
the positional placeholder, and an exact duplicate gets a numeric
suffix. -/
theorem parseTab_delimiter_expansion :
    parseTabSeparatedColumns [("state_year_rain", [Cell.str "MH\t2020\t850"])] =
      [("state", [Cell.str "MH"]), ("year", [Cell.str "2020"]),
       ("rain", [Cell.str "850"])] ∧
    (∀ (names : List String), "" ∉ names → " " ∉ names → names.Nodup →
      cleanNames names = names) ∧
    parseTabSeparatedColumns [("state__rain", [Cell.str "MH\tx\t850"])] =
      [("state", [Cell.str "MH"]), ("col_1", [Cell.str "x"]),
       ("rain", [Cell.str "850"])] ∧
    parseTabSeparatedColumns [("a_a", [Cell.str "1\t2"])] =
      [("a", [Cell.str "1"]), ("a_1", [Cell.str "2"])] := by
  refine ⟨by decide, ?_, by decide, by decide⟩
  intro names hb hs hnd
  exact cleanNamesAux_eq_self names 0 [] hb hs hnd (fun n _ => rfl)

/-- C6 witness: distinct non-blank fragments are kept unchanged. -/
theorem parseTab_delimiter_expansion_witness :
    cleanNames ["state", "year", "rain"] = ["state", "year", "rain"] :=
  parseTab_delimiter_expansion.2.1 ["state", "year", "rain"]
    (by decide) (by decide) (by decide)

/-- Shifting one offset step out of a mapped range. -/
theorem range_offset_shift (n offset limit : Nat) :
    offset :: (List.range (n + 1)).map (fun i => offset + limit + i * limit) =
      (List.range (n + 2)).map (fun i => offset + i * limit) := by
  conv_rhs => rw [show n + 2 = (n + 1) + 1 from rfl, List.range_succ_eq_map]
  simp only [List.map_cons, Nat.zero_mul, Nat.add_zero, List.map_map]
  refine congrArg (offset :: ·) ?_
  refine List.map_congr_left ?_
  intro i _
  simp only [Function.comp_apply, Nat.succ_mul]
  omega

/-- The fetch loop over a source made of full pages followed by one
short page: it visits the offsets in page-size steps and accumulates
every page in order. -/
theorem fetchLoop_pages {α : Type} (full : List (List α)) :
    ∀ (last : List α) (src : Nat → Option (List α)) (limit fuel offset : Nat)
      (acc : List α) (calls : List Nat),
    0 < limit → last.length < limit →
    (∀ p ∈ full, p.length = limit) →
    (∀ i, i ≤ full.length → src (offset + i * limit) = some ((full ++ [last]).getD i [])) →
    full.length < fuel →
    fetchLoop src limit fuel offset acc calls =
      some (acc ++ full.flatten ++ last,
        calls ++ (List.range (full.length + 1)).map (fun i => offset + i * limit)) := by
  induction full with
  | nil =>
    intro last src limit fuel offset acc calls hlim hlast _ hsrc hfuel
    cases fuel with
    | zero => omega
    | succ f =>
      have h0 := hsrc 0 (Nat.zero_le _)
      simp only [Nat.zero_mul, Nat.add_zero, List.nil_append, List.getD_cons_zero] at h0
      have hr1 : List.map (fun i => offset + i * limit) (List.range 1) = [offset] := by
        rw [List.range_succ]
        simp
      rw [fetchLoop]
      by_cases he : last.isEmpty
      · have hl : last = [] := List.isEmpty_iff.mp he
        subst hl
        simp [h0, hr1]
      · have hne : last.isEmpty = false := by simpa using he
        simp [h0, hne, hlast, hr1]
  | cons p rest ih =>
    intro last src limit fuel offset acc calls hlim hlast hfull hsrc hfuel
    cases fuel with
    | zero => simp at hfuel
    | succ f =>
      have h0 := hsrc 0 (Nat.zero_le _)
      simp only [Nat.zero_mul, Nat.add_zero, List.cons_append, List.getD_cons_zero] at h0
      have hp : p.length = limit := hfull p (List.mem_cons_self p rest)
      have hpne : p.isEmpty = false := by
        cases p
        · simp at hp; omega
        · rfl
      rw [fetchLoop]
      simp only [h0, hpne, Bool.false_eq_true, if_false, hp, lt_irrefl]
      rw [ih last src limit f (offset + limit) (acc ++ p) (calls ++ [offset]) hlim hlast
        (fun q hq => hfull q (List.mem_cons_of_mem p hq)) ?_ (by simp at hfuel ⊢; omega)]
      · refine congrArg some ?_
        refine Prod.ext ?_ ?_
        · simp [List.append_assoc]
        · simp only [List.append_assoc, List.singleton_append, List.length_cons]
          exact congrArg (calls ++ ·) (range_offset_shift rest.length offset limit)
      · intro i hi
        have hx := hsrc (i + 1) (by simpa using Nat.succ_le_succ hi)
        rw [show offset + (i + 1) * limit = offset + limit + i * limit by
          rw [Nat.succ_mul]; omega] at hx
        simpa using hx

/-- C2.  `fetch_all_pages` starts at offset 0, advances by the page
size, accumulates the records in page order and stops exactly at the
first empty or short page; for pages of sizes 100, 100 and 40 at page
size 100 it returns the 240 records and performs exactly the three
requests at offsets 0, 100 and 200. -/
theorem fetch_all_pages_pagination :
    (∀ {α : Type} (full : List (List α)) (last : List α) (limit fuel : Nat),
      0 < limit → (∀ p ∈ full, p.length = limit) → last.length < limit →
      full.length < fuel →
      fetch_all_pages (pageStub (full ++ [last]) limit) limit fuel =
        some ((full ++ [last]).flatten,
          (List.range (full.length + 1)).map (fun i => i * limit))) ∧
    fetch_all_pages
        (pageStub [List.range 100, List.range' 100 100, List.range' 200 40] 100)
        100 10 =
      some (List.range 240, [0, 100, 200]) := by
  have hgen : ∀ {α : Type} (full : List (List α)) (last : List α) (limit fuel : Nat),
      0 < limit → (∀ p ∈ full, p.length = limit) → last.length < limit →
      full.length < fuel →
      fetch_all_pages (pageStub (full ++ [last]) limit) limit fuel =
        some ((full ++ [last]).flatten,
          (List.range (full.length + 1)).map (fun i => i * limit)) := by
    intro α full last limit fuel hlim hfull hlast hfuel
    have h := fetchLoop_pages full last (pageStub (full ++ [last]) limit) limit fuel 0 [] []
      hlim hlast hfull ?_ hfuel
    · rw [fetch_all_pages, h]
      simp [List.flatten_append]
    · intro i hi
      simp only [pageStub, Nat.zero_add]
      rw [Nat.mul_div_cancel _ hlim]
  refine ⟨hgen, ?_⟩
  have h := hgen (α := Nat) [List.range 100, List.range' 100 100] (List.range' 200 40)
    100 10 (by norm_num) ?_ (by simp) (by simp)
  · rw [show ([List.range 100, List.range' 100 100] ++ [List.range' 200 40]) =
        [List.range 100, List.range' 100 100, List.range' 200 40] from rfl] at h
    rw [h]
    refine congrArg some (Prod.ext ?_ ?_)
    · simp only [List.flatten_cons, List.flatten_nil]
      refine Eq.symm ?_
      rw [List.append_nil, ← List.append_assoc]
      rw [List.range_eq_range']
      rw [show (240 : Nat) = 40 + (100 + 100) by rfl]
      rw [← List.range'_append 0 (100 + 100) 40 1]
      rw [← List.range'_append 0 100 100 1]
      simp [List.range_eq_range']
    · decide
  · intro p hp
    simp only [List.mem_cons, List.not_mem_nil, or_false] at hp
    rcases hp with rfl | rfl
    · simp
    · simp

/-- C2 witness: a two-page stub, one full page of two records and one
short page of one. -/
theorem fetch_all_pages_pagination_witness :
    fetch_all_pages (pageStub ([[10, 11]] ++ [[12]]) 2) 2 5 =
      some ((([[10, 11]] ++ [[12]] : List (List Nat))).flatten,
        (List.range (List.length [[10, 11]] + 1)).map (fun i => i * 2)) :=
  fetch_all_pages_pagination.1 [[10, 11]] [12] 2 5
    (by decide) (by decide) (by decide) (by decide)

/-- C3 counterexample: on a transport failing every attempt, two
different resource identifiers yield the identical raised error value,
so the propagated retry-exhaustion error carries no dataset identifier
(and no `FetchError` type exists in the code to carry one). -/
theorem fetch_resource_no_identifier_counterexample :
    fetch_resource "https://api.data.gov.in/resource" "res-A" failingTransport =
      (RetryOutcome.retryError "connection timeout", 3) ∧
    fetch_resource "https://api.data.gov.in/resource" "res-B" failingTransport =
      (RetryOutcome.retryError "connection timeout", 3) ∧
    "res-A" ≠ "res-B" :=
  ⟨rfl, rfl, by decide⟩

/-- C3 amended.  Each page fetch is attempted at most 3 times; when
every attempt fails the body is called exactly 3 times and the
retry-exhaustion error wrapping the cause of the last attempt
propagates to the caller. -/
theorem fetch_resource_retry_bound :
    (∀ {ε α : Type} (base id : String) (transport : String → Nat → Except ε α)
        (e1 e2 e3 : ε),
      transport (base ++ "/" ++ id) 1 = Except.error e1 →
      transport (base ++ "/" ++ id) 2 = Except.error e2 →
      transport (base ++ "/" ++ id) 3 = Except.error e3 →
      fetch_resource base id transport = (RetryOutcome.retryError e3, 3)) ∧
    (∀ {ε α : Type} (base id : String) (transport : String → Nat → Except ε α),
      (fetch_resource base id transport).2 ≤ 3) := by
  constructor
  · intro ε α base id transport e1 e2 e3 h1 h2 h3
    simp [fetch_resource, retryStopAfter3, h1, h2, h3]
  · intro ε α base id transport
    cases h1 : transport (base ++ "/" ++ id) 1 with
    | ok a => simp [fetch_resource, retryStopAfter3, h1]
    | error e =>
      cases h2 : transport (base ++ "/" ++ id) 2 with
      | ok a => simp [fetch_resource, retryStopAfter3, h1, h2]
      | error e2 =>
        cases h3 : transport (base ++ "/" ++ id) 3 with
        | ok a => simp [fetch_resource, retryStopAfter3, h1, h2, h3]
        | error e3 => simp [fetch_resource, retryStopAfter3, h1, h2, h3]

/-- C3 witness: the always-failing transport at a concrete resource. -/
theorem fetch_resource_retry_bound_witness :
    fetch_resource "https://api.data.gov.in/resource" "res-C" failingTransport =
      (RetryOutcome.retryError "connection timeout", 3) :=
  fetch_resource_retry_bound.1 "https://api.data.gov.in/resource" "res-C"
    failingTransport "connection timeout" "connection timeout" "connection timeout"
    rfl rfl rfl

/-- C4.  A table at or below `max_rows` is returned whole; a larger one
is sampled down to exactly `max_rows` rows; for 10000 rows at
`max_rows` 1000 the sample is exactly the first 400 rows, the 200 rows
centered in the table (rows 4901 to 5100), and the last 400 rows. -/
theorem smart_sample_bounds :
    (∀ {α : Type} (rows : List α) (max_rows : Nat),
      rows.length ≤ max_rows → smart_sample rows max_rows = rows) ∧
    (∀ {α : Type} (rows : List α) (max_rows : Nat),
      max_rows < rows.length → (smart_sample rows max_rows).length = max_rows) ∧
    smart_sample (List.range 10000) 1000 =
      List.range 400 ++ List.range' 4900 200 ++ List.range' 9600 400 := by
  refine ⟨?_, ?_, ?_⟩
  · intro α rows m h
    simp [smart_sample, h]
  · intro α rows m h
    rw [smart_sample, if_neg (by omega)]
    simp only [List.length_append, List.length_take, List.length_drop]
    omega
  · have h1 : (List.range 10000).take 400 = List.range 400 := by
      rw [List.take_range]
      norm_num
    have h3 : ((List.range 10000).drop 4900).take 200 = List.range' 4900 200 := by
      have hsplit : List.range 10000 =
          List.range 4900 ++ List.map (fun x => 4900 + x) (List.range 5100) := by
        rw [← List.range_add]
      rw [hsplit, List.drop_left' (by simp), ← List.map_take, List.take_range]
      norm_num
      rw [List.range_eq_range', List.map_add_range']
    have h4 : (List.range 10000).drop 9600 = List.range' 9600 400 := by
      have hsplit : List.range 10000 =
          List.range 9600 ++ List.map (fun x => 9600 + x) (List.range 400) := by
        rw [← List.range_add]
      rw [hsplit, List.drop_left' (by simp), List.range_eq_range', List.map_add_range']
    rw [smart_sample, if_neg (by simp)]
    simp only [List.length_range]
    norm_num
    rw [h1, h3, h4]

/-- C4 witness: a 30-row table sampled at 10 and a 5-row table kept
whole. -/
theorem smart_sample_bounds_witness :
    (smart_sample (List.range 30) 10).length = 10 ∧
    smart_sample (List.range 5) 10 = List.range 5 :=
  ⟨smart_sample_bounds.2.1 (List.range 30) 10 (by simp),
   smart_sample_bounds.1 (List.range 5) 10 (by simp)⟩

/-- C7.  When the relevance model call raises, `get_relevant_datasets`
returns every catalog identifier of the climate and agriculture
categories; with any entry of those categories present the result is
non-empty and drawn from existing catalog entries. -/
theorem get_relevant_datasets_fallback :
    (∀ (catalog : Catalog) (e : Unit),
      get_relevant_datasets catalog (Except.error e) =
        (listDatasets catalog "climate" ++ listDatasets catalog "agriculture").map
          (fun d => d.dataset_id)) ∧
    (∀ (catalog : Catalog) (e : Unit) (d : DatasetMetadata),
      d ∈ catalog → (d.category = "climate" ∨ d.category = "agriculture") →
      get_relevant_datasets catalog (Except.error e) ≠ [] ∧
      ∀ id ∈ get_relevant_datasets catalog (Except.error e),
        ∃ d2 ∈ catalog, d2.dataset_id = id ∧
          (d2.category = "climate" ∨ d2.category = "agriculture")) := by
  refine ⟨fun _ _ => rfl, ?_⟩
  intro catalog e d hd hcat
  have hmem : d ∈ listDatasets catalog "climate" ++ listDatasets catalog "agriculture" := by
    rcases hcat with h | h
    · exact List.mem_append_left _ (List.mem_filter.mpr ⟨hd, by simp [h]⟩)
    · exact List.mem_append_right _ (List.mem_filter.mpr ⟨hd, by simp [h]⟩)
  constructor
  · intro hemp
    have hin : d.dataset_id ∈ get_relevant_datasets catalog (Except.error e) :=
      List.mem_map_of_mem _ hmem
    rw [hemp] at hin
    exact List.not_mem_nil _ hin
  · intro id hid
    obtain ⟨d2, hmem2, rfl⟩ := List.mem_map.mp hid
    rcases List.mem_append.mp hmem2 with hm | hm
    · have hf := List.mem_filter.mp hm
      exact ⟨d2, hf.1, rfl, Or.inl (by simpa using hf.2)⟩
    · have hf := List.mem_filter.mp hm
      exact ⟨d2, hf.1, rfl, Or.inr (by simpa using hf.2)⟩

/-- C7 witness: a broken model call over a one-entry climate catalog
still yields a non-empty, catalog-backed identifier list. -/
theorem get_relevant_datasets_fallback_witness :
    get_relevant_datasets [demoCatalogEntry] (Except.error ()) ≠ [] ∧
    ∀ id ∈ get_relevant_datasets [demoCatalogEntry] (Except.error ()),
      ∃ d2 ∈ [demoCatalogEntry], d2.dataset_id = id ∧
        (d2.category = "climate" ∨ d2.category = "agriculture") :=
  get_relevant_datasets_fallback.2 [demoCatalogEntry] () demoCatalogEntry
    (by simp) (Or.inl rfl)

/-- C8 counterexample: a successful model response naming an identifier
that is not in the catalog is returned verbatim, so the implementation
does return identifier strings outside the catalog instead of applying
the fallback. -/
theorem get_relevant_datasets_unvalidated_counterexample :
    get_relevant_datasets [demoCatalogEntry] (Except.ok "bogus-id") = ["bogus-id"] ∧
    ∀ d ∈ ([demoCatalogEntry] : Catalog), d.dataset_id ≠ "bogus-id" := by
  constructor
  · rfl
  · decide

/-- C8 amended.  Only an exception from the model call triggers the
catalog fallback; a successful text response is never validated against
the catalog: the selected identifier list is the same whatever the
catalog holds. -/
theorem get_relevant_datasets_no_validation :
    (∀ (catalog catalog2 : Catalog) (text : String),
      get_relevant_datasets catalog (Except.ok text) =
        get_relevant_datasets catalog2 (Except.ok text)) ∧
    (∀ (catalog : Catalog) (e : Unit),
      get_relevant_datasets catalog (Except.error e) =
        (listDatasets catalog "climate" ++ listDatasets catalog "agriculture").map
          (fun d => d.dataset_id)) :=
  ⟨fun _ _ _ => rfl, fun _ _ => rfl⟩

/-- A candidate whose extracted id is not truthy never enters the
deduplicated list, whatever the already-seen set is. -/
theorem dedupGo_not_mem (ds : Candidate)
    (h : truthyId (extract_resource_id ds) = false) :
    ∀ (l : List Candidate) (seen : List String), ds ∉ dedupGo l seen := by
  intro l
  induction l with
  | nil => intro seen; simp [dedupGo]
  | cons a rest ih =>
    intro seen
    cases hx : extract_resource_id a with
    | none =>
      simp only [dedupGo, hx]
      exact ih seen
    | some rid =>
      simp only [dedupGo, hx]
      by_cases hr : rid = ""
      · rw [if_pos hr]
        exact ih seen
      · rw [if_neg hr]
        by_cases hs : rid ∈ seen
        · rw [if_pos hs]
          exact ih seen
        · rw [if_neg hs]
          intro hmem
          rcases List.mem_cons.mp hmem with heq | hmem2
          · subst heq
            rw [hx] at h
            simp [truthyId] at h
            exact hr h
          · exact ih (rid :: seen) hmem2

/-- Dropping the non-truthy candidates first does not change the
deduplication result. -/
theorem dedupGo_filter (l : List Candidate) :
    ∀ seen, dedupGo (l.filter (fun ds => truthyId (extract_resource_id ds))) seen =
      dedupGo l seen := by
  induction l with
  | nil => intro seen; rfl
  | cons a rest ih =>
    intro seen
    by_cases ht : truthyId (extract_resource_id a)
    · simp only [List.filter_cons, ht, if_true]
      cases hx : extract_resource_id a with
      | none =>
        rw [hx] at ht
        simp [truthyId] at ht
      | some rid =>
        have hr : ¬ rid = "" := by
          rw [hx] at ht
          simpa [truthyId] using ht
        simp only [dedupGo, hx, if_neg hr]
        by_cases hs : rid ∈ seen
        · rw [if_pos hs, if_pos hs]
          exact ih seen
        · rw [if_neg hs, if_neg hs]
          exact congrArg (a :: ·) (ih (rid :: seen))
    · have htf : truthyId (extract_resource_id a) = false := by
        simpa using ht
      simp only [List.filter_cons, htf, Bool.false_eq_true, if_false]
      cases hx : extract_resource_id a with
      | none =>
        rw [show dedupGo (a :: rest) seen = dedupGo rest seen by
          simp only [dedupGo, hx]]
        exact ih seen
      | some rid =>
        have hr : rid = "" := by
          rw [hx] at ht
          simpa [truthyId] using ht
        rw [show dedupGo (a :: rest) seen = dedupGo rest seen by
          simp only [dedupGo, hx, if_pos hr]]
        exact ih seen

/-- C10.  A search candidate with no truthy identifier field is absent
from the deduplicated candidate list, and both discovery paths give the
same catalog, registrations and answer as if the candidate had never
been in the search results, so it is never classified nor registered. -/
theorem dropped_candidate_excluded :
    (∀ (ds : Candidate) (l : List Candidate),
      truthyId (extract_resource_id ds) = false → ds ∉ dedupCandidates l) ∧
    (∀ (l : List Candidate),
      dedupCandidates (l.filter (fun ds => truthyId (extract_resource_id ds))) =
        dedupCandidates l) ∧
    (∀ (catalog : Catalog) (classify : Candidate → Option String)
        (l : List Candidate) (llm : Except Unit String),
      discover_and_add_for_question catalog classify
          (l.filter (fun ds => truthyId (extract_resource_id ds))) llm =
        discover_and_add_for_question catalog classify l llm) ∧
    (∀ (catalog : Catalog) (l : List Candidate) (category : String),
      discover_all_for_category catalog
          (l.filter (fun ds => truthyId (extract_resource_id ds))) category =
        discover_all_for_category catalog l category) := by
  refine ⟨?_, ?_, ?_, ?_⟩
  · intro ds l h
    exact dedupGo_not_mem ds h l []
  · intro l
    exact dedupGo_filter l []
  · intro catalog classify l llm
    unfold discover_and_add_for_question dedupCandidates
    rw [dedupGo_filter l []]
  · intro catalog l category
    unfold discover_all_for_category dedupCandidates
    rw [dedupGo_filter l []]

/-- C10 witness: a candidate whose only identifier-like field is an
empty string is excluded even from the search results it occurs in. -/
theorem dropped_candidate_excluded_witness :
    noIdCandidate ∉ dedupCandidates [noIdCandidate] :=
  dropped_candidate_excluded.1 noIdCandidate [noIdCandidate] (by decide)

end Samarth
